import Mathlib

/-!
BlobPorter: the Azure page-blob target.

A shallow embedding of `targets/azurepage.go`.  The target is a record
(`AzurePage`), its methods are state-passing functions over an explicit
`World` (the log of remote calls, the supply of fresh HTTP clients and the
clock), and the remote store is an arbitrary deterministic responder.
Unsigned 64-bit values are natural numbers, signed 64-bit values are
integers; the conversions between them are explicit.
-/

namespace BlobPorter

/-! ## Machine integers -/

/-- Go conversion `int64(u)` of an unsigned 64-bit value: the same 64 bits read
in two's complement. -/
def int64 (u : Nat) : Int :=
  if u % 2 ^ 64 < 2 ^ 63 then ((u % 2 ^ 64 : Nat) : Int)
  else ((u % 2 ^ 64 : Nat) : Int) - 2 ^ 64

/-- Go conversion `uint64(n)`. -/
def uint64 (n : Nat) : Nat := n % 2 ^ 64

/-- Go `a + b - 1` on unsigned 64-bit operands (wraps modulo 2^64). -/
def addSubOne64 (a b : Nat) : Nat := (a + b + (2 ^ 64 - 1)) % 2 ^ 64

/-! ## Results of a call that may abort the process -/

/-- Outcome of a Go call: it returns a value or the process panics. -/
inductive Outcome (α : Type) where
  | returned (a : α)
  | panicked
  deriving DecidableEq, Repr

/-- Transport of a function over the returned value. -/
def Outcome.map {α β : Type} (f : α → β) : Outcome α → Outcome β
  | .returned a => .returned (f a)
  | .panicked => .panicked

/-! ## Request headers (`map[string]string`) -/

/-- Go `map[string]string`, kept as an association list with unique keys. -/
structure Headers where
  entries : List (String × String)
  deriving DecidableEq, Repr

namespace Headers

/-- Go `make(map[string]string)`: the empty map. -/
def empty : Headers := ⟨[]⟩

/-- Go `headers[k] = v`: the value under `k` is replaced, or the entry added. -/
def set (h : Headers) (k v : String) : Headers :=
  if h.entries.any (fun p => p.1 == k) then
    ⟨h.entries.map (fun p => if p.1 == k then (k, v) else p)⟩
  else ⟨h.entries ++ [(k, v)]⟩

/-- Go `headers[k]`, with `none` for an absent key. -/
def get (h : Headers) (k : String) : Option String := h.entries.lookup k

/-- The keys present in the map. -/
def keys (h : Headers) : List String := h.entries.map Prod.fst

end Headers

/-! ## package pipeline -/

namespace pipeline

/-- Credentials of the storage account (`pipeline.StorageAccountCredentials`). -/
structure StorageAccountCredentials where
  AccountName : String
  AccountKey : String
  deriving DecidableEq, Repr

/-- Descriptor of a source (`pipeline.SourceInfo`); `Size` is a uint64. -/
structure SourceInfo where
  SourceName : String
  Size : Nat
  TargetAlias : String
  deriving DecidableEq, Repr

/-- Modelled from the spec: the declaration of `pipeline.Part` and its methods
`IsMD5Computed` and `MD5` are missing. A part has an offset, a number of bytes
to read, a target alias, the data, and an optional md5 that is set iff MD5 mode
is enabled and the reader computed it. -/
structure Part where
  Offset : Nat
  BytesToRead : Nat
  Data : List Nat
  TargetAlias : String
  md5 : Option String
  deriving DecidableEq, Repr

/-- Modelled from the spec: `Part.IsMD5Computed` (declaration missing), true iff
the part carries an MD5. -/
def Part.IsMD5Computed (p : Part) : Bool := p.md5.isSome

/-- Modelled from the spec: `Part.MD5` (declaration missing), the MD5 the part
carries. -/
def Part.MD5 (p : Part) : String := p.md5.getD ""

/-- Accumulator for block-blob commits (`pipeline.TargetCommittedListInfo`). -/
structure TargetCommittedListInfo where
  List : List (Nat × String)
  deriving DecidableEq, Repr

/-- Per-part outcome (`pipeline.WorkerResult`). -/
structure WorkerResult where
  Ordinal : Nat
  TargetName : String
  BytesWritten : Nat
  Duration : Nat
  Retries : Nat
  deriving DecidableEq, Repr

end pipeline

/-! ## package storage (the remote store) -/

namespace storage

/-- A blob storage client: the account it talks to and the identity of the HTTP
client (transport and connection pool) it owns. -/
structure BlobStorageClient where
  accountName : String
  accountKey : String
  httpClient : Nat
  deriving DecidableEq, Repr

/-- A request sent to the store, together with the client that sent it. -/
inductive RemoteCall where
  | PutPageBlob (client : BlobStorageClient) (container name : String) (size : Int)
      (headers : Headers)
  | PutPage (client : BlobStorageClient) (container name : String) (startByte endByte : Int)
      (writeType : String) (data : List Nat) (headers : Headers)
  deriving DecidableEq, Repr

/-- The client that issued a call. -/
def RemoteCall.client : RemoteCall → BlobStorageClient
  | .PutPageBlob c _ _ _ _ => c
  | .PutPage c _ _ _ _ _ _ _ => c

end storage

open storage pipeline

/-- Everything outside the target that its methods touch: the log of remote
calls (oldest first), the number of HTTP clients built so far and the clock. -/
structure World where
  calls : List RemoteCall
  nextHTTP : Nat
  now : Nat
  deriving DecidableEq, Repr

/-- The environment the target runs in: the user agent string, the retry limit
of the retry policy, the store (an arbitrary function from the history of calls
and the request to an optional error), the time a call takes and the delay
between attempts. -/
structure Env where
  userAgent : String
  retryLimit : Nat
  respond : List RemoteCall → RemoteCall → Option String
  latency : Nat → Nat
  backoff : Nat → Nat

/-- Sending a request: the store answers, the call is logged, time passes. -/
def World.perform (env : Env) (w : World) (c : RemoteCall) : Option String × World :=
  (env.respond w.calls c,
    { w with calls := w.calls ++ [c], now := w.now + env.latency w.calls.length })

/-! ## package util -/

namespace util

/-- Modelled from the spec: the constant `util.MB` is missing; 4 MiB is
4194304 bytes. -/
def MB : Nat := 1048576

/-- Modelled from the spec: the constant `util.TB` is missing; 8 TiB is
8796093022208 bytes. -/
def TB : Nat := 1099511627776

/-- Modelled from the spec: `util.GetUserAgentInfo` is missing; it gives the
User-Agent string identifying the tool and version. -/
def GetUserAgentInfo (env : Env) : String := env.userAgent

/-- Modelled from the spec: `util.GetBlobStorageClientWithNewHTTPClient` is
missing; it reconstructs the client for the account around a new HTTP client
(pooled connections are discarded). -/
def GetBlobStorageClientWithNewHTTPClient (accountName accountKey : String) (w : World) :
    BlobStorageClient × World :=
  (⟨accountName, accountKey, w.nextHTTP⟩, { w with nextHTTP := w.nextHTTP + 1 })

/-- What the retry wrapper reports: duration, start time and number of retries. -/
structure Report where
  duration : Nat
  startTime : Nat
  numOfRetries : Nat
  deriving DecidableEq, Repr

/-- Attempts of the retry wrapper: `left` attempts remain, `r` is the index of
the attempt about to be made. -/
def RetriableOperation.loop {γ : Type} (env : Env)
    (operation : Nat → γ → World → Option String × γ × World) (t0 : Nat) :
    Nat → Nat → γ → World → Outcome Report × γ × World
  | 0, _, g, w => (.panicked, g, w)
  | left + 1, r, g, w =>
    match operation r g w with
    | (none, g1, w1) => (.returned ⟨w1.now - t0, t0, r⟩, g1, w1)
    | (some _, g1, w1) =>
      RetriableOperation.loop env operation t0 left (r + 1) g1
        { w1 with now := w1.now + env.backoff r }

/-- Modelled from the spec: `util.RetriableOperation` is missing. The shared
retry policy invokes the operation up to `retryLimit` times; on each failure
the operation is re-invoked with the attempt index, after a delay; on
exhaustion the process panics. It reports duration, start time and retries.
The state `γ` holds the variables the closure captures. -/
def RetriableOperation {γ : Type} (env : Env)
    (operation : Nat → γ → World → Option String × γ × World) (g : γ) (w : World) :
    Outcome Report × γ × World :=
  RetriableOperation.loop env operation w.now env.retryLimit 0 g w

end util

/-! ## package targets -/

namespace targets

/-- The errors `PreProcessSourceInfo` builds with `fmt.Errorf`, by message, with
the arguments the message is given. -/
inductive ConfigError where
  | invalidSize (sourceName : String) (size pageSize : Nat)
  | tooBig (sourceName : String) (size maxSize : Nat)
  | invalidBlockSize (pageSize maxPageSize : Nat)
  deriving DecidableEq, Repr

/-- The Azure page target (`AzurePage`). -/
structure AzurePage where
  Creds : StorageAccountCredentials
  Container : String
  StorageClient : BlobStorageClient
  deriving DecidableEq, Repr

/-- Page size for page blobs. -/
def PageSize : Nat := 512

/-- Largest block size for page blobs, `4 * util.MB`. -/
def maxPageSize : Nat := 4 * util.MB

/-- Largest page blob, `8 * util.TB`. -/
def maxPageBlobSize : Nat := 8 * util.TB

/-- The method `resetClient`: a new client replaces the target's client. -/
def AzurePage.resetClient (t : AzurePage) (w : World) : AzurePage × World :=
  let (client, w1) :=
    util.GetBlobStorageClientWithNewHTTPClient t.Creds.AccountName t.Creds.AccountKey w
  ({ t with StorageClient := client }, w1)

/-- The closure `PreProcessSourceInfo` hands to the retry wrapper: one attempt
to create the page blob. -/
def AzurePage.createAttempt (env : Env) (source : SourceInfo) (size : Int) (headers : Headers)
    (_r : Nat) (t : AzurePage) (w : World) : Option String × AzurePage × World :=
  match w.perform env (.PutPageBlob t.StorageClient t.Container source.TargetAlias size headers) with
  | (some err, w1) =>
    let (t1, w2) := t.resetClient w1
    (some err, t1, w2)
  | (none, w1) => (none, t, w1)

/-- The method `PreProcessSourceInfo`: validation, then creation of the page
blob under the retry wrapper. -/
def AzurePage.PreProcessSourceInfo (env : Env) (t : AzurePage) (source : SourceInfo)
    (blockSize : Nat) (w : World) : Outcome (Option ConfigError) × AzurePage × World :=
  let size := int64 source.Size
  if Int.tmod size (int64 PageSize) ≠ 0 then
    (.returned (some (.invalidSize source.SourceName source.Size PageSize)), t, w)
  else if size > int64 maxPageBlobSize then
    (.returned (some (.tooBig source.SourceName source.Size maxPageBlobSize)), t, w)
  else if blockSize > maxPageSize ∨ blockSize < PageSize then
    (.returned (some (.invalidBlockSize PageSize maxPageSize)), t, w)
  else
    let headers := Headers.empty
    let userAgent := util.GetUserAgentInfo env
    let headers := headers.set "User-Agent" userAgent
    match util.RetriableOperation env (AzurePage.createAttempt env source size headers) t w with
    | (.returned _, t1, w1) => (.returned none, t1, w1)
    | (.panicked, t1, w1) => (.panicked, t1, w1)

/-- The method `CommitList`: nothing to commit for a page blob. -/
def AzurePage.CommitList (t : AzurePage) (listInfo : TargetCommittedListInfo)
    (_NumberOfBlocks : Int) (_targetName : String) (w : World) :
    (String × Option String) × AzurePage × TargetCommittedListInfo × World :=
  (("Page blob committed", none), t, listInfo, w)

/-- The method `ProcessWrittenPart`: nothing to process for a page blob. -/
def AzurePage.ProcessWrittenPart (t : AzurePage) (_result : WorkerResult)
    (listInfo : TargetCommittedListInfo) (w : World) :
    (Bool × Option String) × AzurePage × TargetCommittedListInfo × World :=
  ((false, none), t, listInfo, w)

/-- The closure `WritePart` hands to the retry wrapper: one attempt to put the
page. The captured variables are the target and the `headers` map. -/
def AzurePage.writeAttempt (env : Env) (part : Part) (offset endByte : Int)
    (_r : Nat) (g : AzurePage × Headers) (w : World) :
    Option String × (AzurePage × Headers) × World :=
  let t := g.1
  let headers := g.2
  let headers := if part.IsMD5Computed then headers.set "Content-MD5" part.MD5 else headers
  let userAgent := util.GetUserAgentInfo env
  let headers := headers.set "User-Agent" userAgent
  match w.perform env
      (.PutPage t.StorageClient t.Container part.TargetAlias offset endByte "update" part.Data
        headers) with
  | (some err, w1) =>
    let (t1, w2) := t.resetClient w1
    (some err, (t1, headers), w2)
  | (none, w1) => (none, (t, headers), w1)

/-- The method `WritePart`: a PUT page with the data of the part, under the
retry wrapper. The results are duration, start time, retries and error. -/
def AzurePage.WritePart (env : Env) (t : AzurePage) (part : Part) (w : World) :
    Outcome (Nat × Nat × Nat × Option String) × AzurePage × World :=
  let offset := int64 part.Offset
  let endByte := int64 (addSubOne64 part.Offset (uint64 part.BytesToRead))
  let headers := Headers.empty
  match util.RetriableOperation env (AzurePage.writeAttempt env part offset endByte)
      (t, headers) w with
  | (.returned rep, g, w1) =>
    (.returned (rep.duration, rep.startTime, rep.numOfRetries, none), g.1, w1)
  | (.panicked, g, w1) => (.panicked, g.1, w1)

end targets

open targets

/-! ## Observations on the log -/

/-- The calls logged between an earlier world `w0` and a later world `w1`. -/
def World.callsSince (w1 w0 : World) : List RemoteCall := w1.calls.drop w0.calls.length

/-- The headers a request carries. -/
def storage.RemoteCall.headers : RemoteCall → Headers
  | .PutPageBlob _ _ _ _ h => h
  | .PutPage _ _ _ _ _ _ _ h => h

/-- The byte range (start, end) of a PUT page request. -/
def storage.RemoteCall.range : RemoteCall → Option (Int × Int)
  | .PutPage _ _ _ s e _ _ _ => some (s, e)
  | .PutPageBlob _ _ _ _ _ => none

/-- The size a create request asks for. -/
def storage.RemoteCall.size : RemoteCall → Option Int
  | .PutPageBlob _ _ _ size _ => some size
  | .PutPage _ _ _ _ _ _ _ _ => none

/-- The headers `WritePart` sends for a part: the content of the `headers` map
once an attempt has filled it. -/
def sentHeaders (env : Env) (part : Part) : Headers :=
  if part.IsMD5Computed then ⟨[("Content-MD5", part.MD5), ("User-Agent", env.userAgent)]⟩
  else ⟨[("User-Agent", env.userAgent)]⟩

/-- Modelled from the spec: the partitioner is missing. A source of `size` bytes
is cut into consecutive parts of length `B`, the final part possibly shorter:
`num_parts = ⌈size/B⌉`, and the part of ordinal `k` has offset `k * B`. Each
entry is (offset, bytes_to_read). -/
def partition (size B : Nat) : List (Nat × Nat) :=
  (List.range ((size + B - 1) / B)).map (fun k => (k * B, min B (size - k * B)))

/-! ## Test fixtures -/

/-- A store that accepts every request. -/
def okEnv : Env :=
  { userAgent := "BlobPorter", retryLimit := 3, respond := fun _ _ => none,
    latency := fun _ => 1, backoff := fun _ => 1 }

/-- A store that rejects the first `k` requests and accepts the later ones. -/
def flakyEnv (k : Nat) : Env :=
  { userAgent := "BlobPorter", retryLimit := 3,
    respond := fun h _ => if h.length < k then some "EOF" else none,
    latency := fun _ => 1, backoff := fun _ => 1 }

/-- A target on container `bptest` with its first client. -/
def testTarget : AzurePage :=
  { Creds := ⟨"acct", "key"⟩, Container := "bptest", StorageClient := ⟨"acct", "key", 0⟩ }

/-- The world before any call: one HTTP client has been built. -/
def world0 : World := { calls := [], nextHTTP := 1, now := 0 }

/-! ## Signed conversion -/

/-- The page size is unchanged by the signed conversion. -/
theorem int64_PageSize : int64 PageSize = 512 := by decide

/-- The largest page blob size is unchanged by the signed conversion: 8 TiB. -/
theorem int64_maxPageBlobSize : int64 maxPageBlobSize = 8796093022208 := by decide

/-- The signed conversion is the identity below 2^63. -/
theorem int64_of_lt {u : Nat} (h : u < 2 ^ 63) : int64 u = (u : Int) := by
  unfold int64
  have h2 : u % 2 ^ 64 = u := Nat.mod_eq_of_lt (by omega)
  rw [h2, if_pos h]

/-- The alignment check on the converted size: Go `%` truncates, and the remainder
of the converted size by 512 is zero iff the unsigned size is a multiple of 512,
also when the converted size is negative. -/
theorem tmod_int64_eq_zero_iff {u : Nat} (h : u < 2 ^ 64) :
    Int.tmod (int64 u) (int64 PageSize) = 0 ↔ u % 512 = 0 := by
  rw [int64_PageSize, ← Int.dvd_iff_tmod_eq_zero, Int.dvd_iff_emod_eq_zero]
  unfold int64
  have h2 : u % 2 ^ 64 = u := Nat.mod_eq_of_lt h
  rw [h2]
  split <;> omega

/-! ## The retry wrapper -/

namespace util

/-- Hoare-style rule for the retry wrapper: an invariant `Inv` that every failed
attempt (followed by any delay) preserves, and from which a successful attempt
establishes `Post`, gives `Post` when the wrapper returns and `Inv` when it
panics. -/
theorem RetriableOperation.loop_rule {γ : Type} (env : Env)
    (operation : Nat → γ → World → Option String × γ × World) (t0 : Nat)
    (Inv Post : γ → World → Prop)
    (hstep : ∀ r g w, Inv g w →
      ((operation r g w).1 = none → Post (operation r g w).2.1 (operation r g w).2.2) ∧
      ((operation r g w).1 ≠ none → ∀ d, Inv (operation r g w).2.1
        { (operation r g w).2.2 with now := (operation r g w).2.2.now + d })) :
    ∀ left r g w, Inv g w →
      ((RetriableOperation.loop env operation t0 left r g w).1 = .panicked →
        Inv (RetriableOperation.loop env operation t0 left r g w).2.1
          (RetriableOperation.loop env operation t0 left r g w).2.2) ∧
      (∀ rep, (RetriableOperation.loop env operation t0 left r g w).1 = .returned rep →
        Post (RetriableOperation.loop env operation t0 left r g w).2.1
          (RetriableOperation.loop env operation t0 left r g w).2.2) := by
  intro left
  induction left with
  | zero =>
    intro r g w hinv
    simp [RetriableOperation.loop, hinv]
  | succ n ih =>
    intro r g w hinv
    have hs := hstep r g w hinv
    rcases hop : operation r g w with ⟨_ | e, g1, w1⟩
    · rw [hop] at hs
      simp only [RetriableOperation.loop, hop]
      simp only [true_implies] at hs
      exact ⟨by simp, fun _ _ => hs.1⟩
    · rw [hop] at hs
      simp only [RetriableOperation.loop, hop]
      exact ih (r + 1) g1 _ (hs.2 (by simp) (env.backoff r))

/-- The number of calls the wrapper adds to the log, when every attempt sends
exactly one request: one per attempt, `numOfRetries + 1` when it returns and
`retryLimit` when it panics. -/
theorem RetriableOperation.loop_calls_length {γ : Type} (env : Env)
    (operation : Nat → γ → World → Option String × γ × World) (t0 : Nat)
    (hop : ∀ r g w, (operation r g w).2.2.calls.length = w.calls.length + 1) :
    ∀ left r g w,
      ((RetriableOperation.loop env operation t0 left r g w).1 = .panicked →
        (RetriableOperation.loop env operation t0 left r g w).2.2.calls.length =
          w.calls.length + left) ∧
      (∀ rep, (RetriableOperation.loop env operation t0 left r g w).1 = .returned rep →
        r ≤ rep.numOfRetries ∧ rep.numOfRetries < r + left ∧
        (RetriableOperation.loop env operation t0 left r g w).2.2.calls.length =
          w.calls.length + (rep.numOfRetries - r) + 1) := by
  intro left
  induction left with
  | zero =>
    intro r g w
    simp [RetriableOperation.loop]
  | succ n ih =>
    intro r g w
    have h1 := hop r g w
    rcases hopr : operation r g w with ⟨_ | e, g1, w1⟩
    · rw [hopr] at h1
      simp only [RetriableOperation.loop, hopr]
      refine ⟨by simp, ?_⟩
      intro rep hrep
      simp only [Outcome.returned.injEq] at hrep
      subst hrep
      simp at h1 ⊢
      omega
    · rw [hopr] at h1
      simp only [RetriableOperation.loop, hopr]
      have h2 := ih (r + 1) g1 { w1 with now := w1.now + env.backoff r }
      simp only at h1
      refine ⟨fun hp => ?_, fun rep hrep => ?_⟩
      · have := h2.1 hp
        simp only at this
        omega
      · have := h2.2 rep hrep
        simp only at this
        omega

/-- When the first attempt succeeds the wrapper returns at once, with no
retries. -/
theorem RetriableOperation.first_success {γ : Type} (env : Env)
    (operation : Nat → γ → World → Option String × γ × World) (g : γ) (w : World)
    (hlimit : 0 < env.retryLimit) (hok : (operation 0 g w).1 = none) :
    RetriableOperation env operation g w =
      (.returned ⟨(operation 0 g w).2.2.now - w.now, w.now, 0⟩, (operation 0 g w).2.1,
        (operation 0 g w).2.2) := by
  unfold RetriableOperation
  obtain ⟨n, hn⟩ : ∃ n, env.retryLimit = n + 1 := ⟨env.retryLimit - 1, by omega⟩
  rw [hn]
  rcases hopr : operation 0 g w with ⟨_ | e, g1, w1⟩
  · simp [RetriableOperation.loop, hopr]
  · rw [hopr] at hok
    simp at hok

end util

/-! ## The attempts of `WritePart` -/

/-- Filling the `headers` map again on a later attempt leaves it as the first
attempt left it. -/
theorem writeHeaders_fixed (env : Env) (part : Part) (h : Headers)
    (hh : h = Headers.empty ∨ h = sentHeaders env part) :
    (if part.IsMD5Computed then h.set "Content-MD5" part.MD5 else h).set "User-Agent"
      (util.GetUserAgentInfo env) = sentHeaders env part := by
  have hne : ("Content-MD5" == "User-Agent") = false := by decide
  rcases hh with rfl | rfl
  · cases hmd : part.md5 <;>
      simp [sentHeaders, Part.IsMD5Computed, Headers.set, Headers.empty, hmd,
        util.GetUserAgentInfo, hne]
  · cases hmd : part.md5 <;>
      simp [sentHeaders, Part.IsMD5Computed, Headers.set, hmd,
        util.GetUserAgentInfo, hne]

/-- What one attempt of `WritePart` does: it sends one PUT page request through
the current client; the error is the answer of the store; on an error the client
is replaced by a new one, otherwise the target is untouched. -/
theorem writeAttempt_spec (env : Env) (part : Part) (o e : Int) (r : Nat)
    (g : AzurePage × Headers) (w : World)
    (hh : g.2 = Headers.empty ∨ g.2 = sentHeaders env part) :
    let c := RemoteCall.PutPage g.1.StorageClient g.1.Container part.TargetAlias o e "update"
      part.Data (sentHeaders env part)
    let res := AzurePage.writeAttempt env part o e r g w
    res.1 = env.respond w.calls c ∧
    res.2.2.calls = w.calls ++ [c] ∧
    res.2.1.2 = sentHeaders env part ∧
    (res.1 = none → res.2.1.1 = g.1 ∧ res.2.2.nextHTTP = w.nextHTTP) ∧
    (res.1 ≠ none →
      res.2.1.1 = { g.1 with StorageClient :=
        ⟨g.1.Creds.AccountName, g.1.Creds.AccountKey, w.nextHTTP⟩ } ∧
      res.2.2.nextHTTP = w.nextHTTP + 1) := by
  intro c res
  have hfix := writeHeaders_fixed env part g.2 hh
  have hres : res = AzurePage.writeAttempt env part o e r g w := rfl
  unfold AzurePage.writeAttempt at hres
  simp only [hfix] at hres
  cases hr : env.respond w.calls c with
  | none =>
    simp only [World.perform, c] at hr hres
    simp only [hr] at hres
    simp [hres, c]
  | some err =>
    simp only [World.perform, c] at hr hres
    simp only [hr, AzurePage.resetClient, util.GetBlobStorageClientWithNewHTTPClient] at hres
    simp [hres, c]

/-- What one attempt of `PreProcessSourceInfo` does: it sends one create request
through the current client; the error is the answer of the store; on an error
the client is replaced by a new one, otherwise the target is untouched. -/
theorem createAttempt_spec (env : Env) (source : SourceInfo) (size : Int) (headers : Headers)
    (r : Nat) (t : AzurePage) (w : World) :
    let c := RemoteCall.PutPageBlob t.StorageClient t.Container source.TargetAlias size headers
    let res := AzurePage.createAttempt env source size headers r t w
    res.1 = env.respond w.calls c ∧
    res.2.2.calls = w.calls ++ [c] ∧
    (res.1 = none → res.2.1 = t ∧ res.2.2.nextHTTP = w.nextHTTP) ∧
    (res.1 ≠ none →
      res.2.1 = { t with StorageClient :=
        ⟨t.Creds.AccountName, t.Creds.AccountKey, w.nextHTTP⟩ } ∧
      res.2.2.nextHTTP = w.nextHTTP + 1) := by
  intro c res
  have hres : res = AzurePage.createAttempt env source size headers r t w := rfl
  unfold AzurePage.createAttempt at hres
  cases hr : env.respond w.calls c with
  | none =>
    simp only [World.perform, c] at hr hres
    simp only [hr] at hres
    simp [hres, c]
  | some err =>
    simp only [World.perform, c] at hr hres
    simp only [hr, AzurePage.resetClient, util.GetBlobStorageClientWithNewHTTPClient] at hres
    simp [hres, c]

/-! ## `WritePart` in terms of the retry wrapper -/

/-- The results of `WritePart` are the report of the retry wrapper with a nil
error; it panics exactly when the wrapper does. -/
theorem WritePart_outcome (env : Env) (t : AzurePage) (part : Part) (w : World) :
    (AzurePage.WritePart env t part w).1 =
      (util.RetriableOperation env
        (AzurePage.writeAttempt env part (int64 part.Offset)
          (int64 (addSubOne64 part.Offset (uint64 part.BytesToRead))))
        (t, Headers.empty) w).1.map
        (fun rep => (rep.duration, rep.startTime, rep.numOfRetries, none)) := by
  unfold AzurePage.WritePart
  dsimp only
  split <;> rename_i heq <;> rw [heq] <;> rfl

/-- The target and the world `WritePart` leaves are those the retry wrapper
leaves. -/
theorem WritePart_state (env : Env) (t : AzurePage) (part : Part) (w : World) :
    (AzurePage.WritePart env t part w).2 =
      ((util.RetriableOperation env
        (AzurePage.writeAttempt env part (int64 part.Offset)
          (int64 (addSubOne64 part.Offset (uint64 part.BytesToRead))))
        (t, Headers.empty) w).2.1.1,
       (util.RetriableOperation env
        (AzurePage.writeAttempt env part (int64 part.Offset)
          (int64 (addSubOne64 part.Offset (uint64 part.BytesToRead))))
        (t, Headers.empty) w).2.2) := by
  unfold AzurePage.WritePart
  dsimp only
  split <;> rename_i heq <;> rw [heq]

/-- Every request `WritePart` logs is the PUT page request of the part, with the
same range, data and headers on every attempt; the container and the
credentials of the target stay as they were. -/
theorem WritePart_requests (env : Env) (t : AzurePage) (part : Part) (w : World) :
    (AzurePage.WritePart env t part w).2.1.Container = t.Container ∧
    (AzurePage.WritePart env t part w).2.1.Creds = t.Creds ∧
    ∃ new, (AzurePage.WritePart env t part w).2.2.calls = w.calls ++ new ∧
      ∀ c ∈ new, ∃ client, c = RemoteCall.PutPage client t.Container part.TargetAlias
        (int64 part.Offset) (int64 (addSubOne64 part.Offset (uint64 part.BytesToRead)))
        "update" part.Data (sentHeaders env part) := by
  rw [WritePart_state]
  let Inv : AzurePage × Headers → World → Prop := fun g w1 =>
    g.1.Container = t.Container ∧ g.1.Creds = t.Creds ∧
    (g.2 = Headers.empty ∨ g.2 = sentHeaders env part) ∧
    ∃ new, w1.calls = w.calls ++ new ∧
      ∀ c ∈ new, ∃ client, c = RemoteCall.PutPage client t.Container part.TargetAlias
        (int64 part.Offset) (int64 (addSubOne64 part.Offset (uint64 part.BytesToRead)))
        "update" part.Data (sentHeaders env part)
  have hstep : ∀ r g w1, Inv g w1 → Inv
      (AzurePage.writeAttempt env part (int64 part.Offset)
        (int64 (addSubOne64 part.Offset (uint64 part.BytesToRead))) r g w1).2.1
      (AzurePage.writeAttempt env part (int64 part.Offset)
        (int64 (addSubOne64 part.Offset (uint64 part.BytesToRead))) r g w1).2.2 := by
    intro r g w1 ⟨hc, hcr, hh, new, hnew, hall⟩
    obtain ⟨-, hcalls, hhdr, hnone, hsome⟩ :=
      writeAttempt_spec env part (int64 part.Offset)
        (int64 (addSubOne64 part.Offset (uint64 part.BytesToRead))) r g w1 hh
    refine ⟨?_, ?_, Or.inr hhdr, new ++ [_], by rw [hcalls, hnew, List.append_assoc], ?_⟩
    · by_cases hz : (AzurePage.writeAttempt env part (int64 part.Offset)
        (int64 (addSubOne64 part.Offset (uint64 part.BytesToRead))) r g w1).1 = none
      · rw [(hnone hz).1]; exact hc
      · rw [(hsome hz).1]; exact hc
    · by_cases hz : (AzurePage.writeAttempt env part (int64 part.Offset)
        (int64 (addSubOne64 part.Offset (uint64 part.BytesToRead))) r g w1).1 = none
      · rw [(hnone hz).1]; exact hcr
      · rw [(hsome hz).1]; exact hcr
    · intro c hcm
      rcases List.mem_append.mp hcm with hcm | hcm
      · exact hall c hcm
      · rw [List.mem_singleton] at hcm
        exact ⟨g.1.StorageClient, by rw [hcm, hc]⟩
  have hrule := util.RetriableOperation.loop_rule env
    (AzurePage.writeAttempt env part (int64 part.Offset)
      (int64 (addSubOne64 part.Offset (uint64 part.BytesToRead)))) w.now Inv Inv
    (fun r g w1 hinv => ⟨fun _ => hstep r g w1 hinv, fun _ _ => hstep r g w1 hinv⟩)
    env.retryLimit 0 (t, Headers.empty) w
    ⟨rfl, rfl, Or.inl rfl, [], by simp, by simp⟩
  have hfin : Inv
      (util.RetriableOperation env
        (AzurePage.writeAttempt env part (int64 part.Offset)
          (int64 (addSubOne64 part.Offset (uint64 part.BytesToRead))))
        (t, Headers.empty) w).2.1
      (util.RetriableOperation env
        (AzurePage.writeAttempt env part (int64 part.Offset)
          (int64 (addSubOne64 part.Offset (uint64 part.BytesToRead))))
        (t, Headers.empty) w).2.2 := by
    unfold util.RetriableOperation
    cases hout : (util.RetriableOperation.loop env
      (AzurePage.writeAttempt env part (int64 part.Offset)
        (int64 (addSubOne64 part.Offset (uint64 part.BytesToRead)))) w.now env.retryLimit 0
      (t, Headers.empty) w).1 with
    | panicked => exact hrule.1 hout
    | returned rep => exact hrule.2 rep hout
  exact ⟨hfin.1, hfin.2.1, hfin.2.2.2⟩

/-! ## `PreProcessSourceInfo` in terms of the retry wrapper -/

/-- When the three validations pass, `PreProcessSourceInfo` is the retry wrapper
around the create attempt: it returns nil when the wrapper returns and panics
when the wrapper panics. -/
theorem PreProcessSourceInfo_of_valid (env : Env) (t : AzurePage) (source : SourceInfo)
    (blockSize : Nat) (w : World)
    (h1 : Int.tmod (int64 source.Size) (int64 PageSize) = 0)
    (h2 : ¬ int64 source.Size > int64 maxPageBlobSize)
    (h3 : ¬ (blockSize > maxPageSize ∨ blockSize < PageSize)) :
    AzurePage.PreProcessSourceInfo env t source blockSize w =
      ((util.RetriableOperation env
          (AzurePage.createAttempt env source (int64 source.Size)
            (Headers.empty.set "User-Agent" env.userAgent)) t w).1.map (fun _ => none),
        (util.RetriableOperation env
          (AzurePage.createAttempt env source (int64 source.Size)
            (Headers.empty.set "User-Agent" env.userAgent)) t w).2) := by
  unfold AzurePage.PreProcessSourceInfo
  simp only [h1, ne_eq, not_true_eq_false, if_false, h2, h3, util.GetUserAgentInfo]
  split <;> rename_i heq <;> rw [heq] <;> rfl

/-- A size that is a multiple of 512 and at most 8 TiB passes the alignment and
the maximum size validations. -/
theorem size_valid_of_aligned_le {size : Nat} (hal : size % 512 = 0)
    (hmax : size ≤ 8796093022208) :
    Int.tmod (int64 size) (int64 PageSize) = 0 ∧ ¬ int64 size > int64 maxPageBlobSize := by
  have hlt : size < 2 ^ 64 := by omega
  refine ⟨(tmod_int64_eq_zero_iff hlt).mpr hal, ?_⟩
  rw [int64_of_lt (by omega), int64_maxPageBlobSize]
  omega

/-- The outcome of a map with a constant nil is never a returned error. -/
theorem Outcome.map_none_ne {α β : Type} (o : Outcome α) (e : β) :
    o.map (fun _ => (none : Option β)) ≠ .returned (some e) := by
  cases o <;> simp [Outcome.map]

/-- One attempt of `WritePart` adds exactly one call to the log. -/
theorem writeAttempt_calls_length (env : Env) (part : Part) (o e : Int) (r : Nat)
    (g : AzurePage × Headers) (w : World) :
    (AzurePage.writeAttempt env part o e r g w).2.2.calls.length = w.calls.length + 1 := by
  unfold AzurePage.writeAttempt
  dsimp only
  split <;> rename_i heq <;>
    simp only [World.perform, Prod.mk.injEq] at heq <;>
    simp [AzurePage.resetClient, util.GetBlobStorageClientWithNewHTTPClient, ← heq.2]

/-- The number of requests `WritePart` sends: one per attempt, that is
`numOfRetries + 1` when it returns and `retryLimit` when it panics. -/
theorem WritePart_calls_length (env : Env) (t : AzurePage) (part : Part) (w : World) :
    ((AzurePage.WritePart env t part w).1 = .panicked →
      (AzurePage.WritePart env t part w).2.2.calls.length = w.calls.length + env.retryLimit) ∧
    (∀ d s n err, (AzurePage.WritePart env t part w).1 = .returned (d, s, n, err) →
      n < env.retryLimit ∧
      (AzurePage.WritePart env t part w).2.2.calls.length = w.calls.length + n + 1) := by
  have hlen := util.RetriableOperation.loop_calls_length env
    (AzurePage.writeAttempt env part (int64 part.Offset)
      (int64 (addSubOne64 part.Offset (uint64 part.BytesToRead)))) w.now
    (writeAttempt_calls_length env part _ _) env.retryLimit 0 (t, Headers.empty) w
  rw [WritePart_outcome, WritePart_state]
  unfold util.RetriableOperation
  cases hout : (util.RetriableOperation.loop env
    (AzurePage.writeAttempt env part (int64 part.Offset)
      (int64 (addSubOne64 part.Offset (uint64 part.BytesToRead)))) w.now env.retryLimit 0
    (t, Headers.empty) w).1 with
  | panicked =>
    simp only [Outcome.map, true_implies]
    exact ⟨hlen.1 hout, by simp⟩
  | returned rep =>
    simp only [Outcome.map]
    refine ⟨by simp, ?_⟩
    intro d s n err hret
    simp only [Outcome.returned.injEq, Prod.mk.injEq] at hret
    have := hlen.2 rep hout
    obtain ⟨-, -, hn, -⟩ := hret
    subst hn
    omega

/-- The calls `WritePart` adds are those after the calls already logged. -/
theorem WritePart_callsSince (env : Env) (t : AzurePage) (part : Part) (w : World) :
    (AzurePage.WritePart env t part w).2.2.calls =
      w.calls ++ (AzurePage.WritePart env t part w).2.2.callsSince w := by
  obtain ⟨-, -, new, hnew, -⟩ := WritePart_requests env t part w
  rw [World.callsSince, hnew, List.drop_left]

/-- The range of the request for a part that lies within the first 8 TiB. -/
theorem putPage_range {off len : Nat} (hlen : 1 ≤ len) (hend : off + len ≤ 8796093022208) :
    int64 off = (off : Int) ∧
    int64 (addSubOne64 off (uint64 len)) = (off : Int) + (len : Int) - 1 := by
  have h1 : uint64 len = len := Nat.mod_eq_of_lt (by omega)
  have h2 : addSubOne64 off len = off + len - 1 := by
    unfold addSubOne64
    have : off + len + (2 ^ 64 - 1) = (off + len - 1) + 2 ^ 64 := by omega
    rw [this, Nat.add_mod_right]
    exact Nat.mod_eq_of_lt (by omega)
  rw [h1, h2, int64_of_lt (by omega), int64_of_lt (by omega)]
  omega

/-! ## Clients across the attempts of a run -/

/-- The client side of one attempt of `WritePart`: the request goes through the
current client; after an error the target holds a new client, built from its
credentials, and is otherwise unchanged; after a success the target is
unchanged. -/
theorem writeAttempt_client (env : Env) (part : Part) (o e : Int) (r : Nat)
    (g : AzurePage × Headers) (w : World) :
    ∃ c : RemoteCall, c.client = g.1.StorageClient ∧
      (AzurePage.writeAttempt env part o e r g w).1 = env.respond w.calls c ∧
      (AzurePage.writeAttempt env part o e r g w).2.2.calls = w.calls ++ [c] ∧
      ((AzurePage.writeAttempt env part o e r g w).1 = none →
        (AzurePage.writeAttempt env part o e r g w).2.1.1 = g.1 ∧
        (AzurePage.writeAttempt env part o e r g w).2.2.nextHTTP = w.nextHTTP) ∧
      ((AzurePage.writeAttempt env part o e r g w).1 ≠ none →
        (AzurePage.writeAttempt env part o e r g w).2.1.1 = { g.1 with StorageClient :=
          ⟨g.1.Creds.AccountName, g.1.Creds.AccountKey, w.nextHTTP⟩ } ∧
        (AzurePage.writeAttempt env part o e r g w).2.2.nextHTTP = w.nextHTTP + 1) := by
  refine ⟨RemoteCall.PutPage g.1.StorageClient g.1.Container part.TargetAlias o e "update"
    part.Data ((if part.IsMD5Computed then g.2.set "Content-MD5" part.MD5 else g.2).set
      "User-Agent" (util.GetUserAgentInfo env)), rfl, ?_⟩
  unfold AzurePage.writeAttempt
  dsimp only
  split <;> rename_i heq <;>
    simp only [World.perform, Prod.mk.injEq] at heq <;>
    simp [AzurePage.resetClient, util.GetBlobStorageClientWithNewHTTPClient, heq.1, ← heq.2]

/-- The client side of one attempt of `PreProcessSourceInfo`. -/
theorem createAttempt_client (env : Env) (source : SourceInfo) (size : Int) (headers : Headers)
    (r : Nat) (t : AzurePage) (w : World) :
    ∃ c : RemoteCall, c.client = t.StorageClient ∧
      (AzurePage.createAttempt env source size headers r t w).1 = env.respond w.calls c ∧
      (AzurePage.createAttempt env source size headers r t w).2.2.calls = w.calls ++ [c] ∧
      ((AzurePage.createAttempt env source size headers r t w).1 = none →
        (AzurePage.createAttempt env source size headers r t w).2.1 = t ∧
        (AzurePage.createAttempt env source size headers r t w).2.2.nextHTTP = w.nextHTTP) ∧
      ((AzurePage.createAttempt env source size headers r t w).1 ≠ none →
        (AzurePage.createAttempt env source size headers r t w).2.1 = { t with StorageClient :=
          ⟨t.Creds.AccountName, t.Creds.AccountKey, w.nextHTTP⟩ } ∧
        (AzurePage.createAttempt env source size headers r t w).2.2.nextHTTP = w.nextHTTP + 1) :=
  ⟨RemoteCall.PutPageBlob t.StorageClient t.Container source.TargetAlias size headers, rfl,
    createAttempt_spec env source size headers r t w⟩

/-- Clients over a whole run of the retry wrapper, for an operation whose
attempts behave as those of the page target do (`tgt` reads the target out of
the captured variables): the container and the credentials never change, the
HTTP clients of the successive requests are strictly newer and newer, the client
of the successful request stays in the target, and after a panic the target
holds a client newer than that of every request. -/
theorem run_clients {γ : Type} (env : Env)
    (operation : Nat → γ → World → Option String × γ × World) (tgt : γ → AzurePage)
    (hop : ∀ r g w, ∃ c : RemoteCall, c.client = (tgt g).StorageClient ∧
      (operation r g w).1 = env.respond w.calls c ∧
      (operation r g w).2.2.calls = w.calls ++ [c] ∧
      ((operation r g w).1 = none →
        tgt (operation r g w).2.1 = tgt g ∧ (operation r g w).2.2.nextHTTP = w.nextHTTP) ∧
      ((operation r g w).1 ≠ none →
        tgt (operation r g w).2.1 = { tgt g with StorageClient :=
          ⟨(tgt g).Creds.AccountName, (tgt g).Creds.AccountKey, w.nextHTTP⟩ } ∧
        (operation r g w).2.2.nextHTTP = w.nextHTTP + 1))
    (g : γ) (w : World) (hfresh : (tgt g).StorageClient.httpClient < w.nextHTTP) :
    (tgt (util.RetriableOperation env operation g w).2.1).Creds = (tgt g).Creds ∧
    (tgt (util.RetriableOperation env operation g w).2.1).Container = (tgt g).Container ∧
    ∃ new, (util.RetriableOperation env operation g w).2.2.calls = w.calls ++ new ∧
      (new.map (fun c => c.client.httpClient)).Pairwise (· < ·) ∧
      (∀ rep, (util.RetriableOperation env operation g w).1 = .returned rep →
        new.getLast?.map RemoteCall.client =
          some (tgt (util.RetriableOperation env operation g w).2.1).StorageClient) ∧
      ((util.RetriableOperation env operation g w).1 = .panicked →
        ∀ c ∈ new, c.client.httpClient <
          (tgt (util.RetriableOperation env operation g w).2.1).StorageClient.httpClient) := by
  let Inv : γ → World → Prop := fun g1 w1 =>
    (tgt g1).Creds = (tgt g).Creds ∧ (tgt g1).Container = (tgt g).Container ∧
    (tgt g1).StorageClient.httpClient < w1.nextHTTP ∧
    ∃ new, w1.calls = w.calls ++ new ∧
      (new.map (fun c => c.client.httpClient)).Pairwise (· < ·) ∧
      ∀ c ∈ new, c.client.httpClient < (tgt g1).StorageClient.httpClient
  let Post : γ → World → Prop := fun g1 w1 =>
    (tgt g1).Creds = (tgt g).Creds ∧ (tgt g1).Container = (tgt g).Container ∧
    ∃ new, w1.calls = w.calls ++ new ∧
      (new.map (fun c => c.client.httpClient)).Pairwise (· < ·) ∧
      new.getLast?.map RemoteCall.client = some (tgt g1).StorageClient
  have hstep : ∀ r g1 w1, Inv g1 w1 →
      ((operation r g1 w1).1 = none → Post (operation r g1 w1).2.1 (operation r g1 w1).2.2) ∧
      ((operation r g1 w1).1 ≠ none → ∀ d, Inv (operation r g1 w1).2.1
        { (operation r g1 w1).2.2 with now := (operation r g1 w1).2.2.now + d }) := by
    intro r g1 w1 ⟨hcr, hct, hlt, new, hnew, hpw, hall⟩
    obtain ⟨c, hcc, -, hcalls, hnone, hsome⟩ := hop r g1 w1
    have hpw2 : ((new ++ [c]).map (fun c => c.client.httpClient)).Pairwise (· < ·) := by
      rw [List.map_append, List.pairwise_append]
      refine ⟨hpw, by simp, ?_⟩
      intro a ha b hb
      simp only [List.map_cons, List.map_nil, List.mem_singleton] at hb
      obtain ⟨c1, hc1, rfl⟩ := List.mem_map.mp ha
      rw [hb, hcc]
      exact hall c1 hc1
    constructor
    · intro hz
      obtain ⟨ht, -⟩ := hnone hz
      refine ⟨by rw [ht]; exact hcr, by rw [ht]; exact hct, new ++ [c],
        by rw [hcalls, hnew, List.append_assoc], hpw2, ?_⟩
      rw [ht, List.getLast?_append]
      simp [hcc]
    · intro hz d
      obtain ⟨ht, hn⟩ := hsome hz
      refine ⟨by rw [ht]; exact hcr, by rw [ht]; exact hct, ?_, new ++ [c], ?_, hpw2, ?_⟩
      · rw [ht]
        simp only [hn]
        omega
      · simp only [hcalls, hnew, List.append_assoc]
      · intro a ha
        rw [ht]
        simp only
        rcases List.mem_append.mp ha with ha | ha
        · have := hall a ha
          omega
        · rw [List.mem_singleton] at ha
          rw [ha, hcc]
          exact hlt
  have hrule := util.RetriableOperation.loop_rule env operation w.now Inv Post hstep
    env.retryLimit 0 g w ⟨rfl, rfl, hfresh, [], by simp, by simp, by simp⟩
  unfold util.RetriableOperation
  cases hout : (util.RetriableOperation.loop env operation w.now env.retryLimit 0 g w).1 with
  | panicked =>
    obtain ⟨hcr, hct, -, new, hnew, hpw, hall⟩ := hrule.1 hout
    exact ⟨hcr, hct, new, hnew, hpw, by simp, fun _ => hall⟩
  | returned rep =>
    obtain ⟨hcr, hct, new, hnew, hpw, hlast⟩ := hrule.2 rep hout
    exact ⟨hcr, hct, new, hnew, hpw, fun _ _ => hlast, by simp⟩

/-- When one of the three validations fails, `PreProcessSourceInfo` returns an
error and leaves the target and the world as they were. -/
theorem PreProcessSourceInfo_of_invalid (env : Env) (t : AzurePage) (source : SourceInfo)
    (blockSize : Nat) (w : World)
    (h : ¬ (Int.tmod (int64 source.Size) (int64 PageSize) = 0 ∧
      ¬ int64 source.Size > int64 maxPageBlobSize ∧
      ¬ (blockSize > maxPageSize ∨ blockSize < PageSize))) :
    ∃ e, AzurePage.PreProcessSourceInfo env t source blockSize w = (.returned (some e), t, w) := by
  unfold AzurePage.PreProcessSourceInfo
  by_cases h1 : Int.tmod (int64 source.Size) (int64 PageSize) = 0
  · by_cases h2 : int64 source.Size > int64 maxPageBlobSize
    · simp only [h1, ne_eq, not_true_eq_false, if_false, h2, if_true]
      exact ⟨_, rfl⟩
    · have h3 : blockSize > maxPageSize ∨ blockSize < PageSize := by
        by_contra h3
        exact h ⟨h1, h2, h3⟩
      simp only [h1, ne_eq, not_true_eq_false, if_false, h2, h3, if_true]
      exact ⟨_, rfl⟩
  · simp only [ne_eq, h1, not_false_eq_true, if_true]
    exact ⟨_, rfl⟩

/-- Strictly increasing HTTP client numbers give pairwise distinct clients. -/
theorem nodup_clients_of_increasing (l : List RemoteCall)
    (h : (l.map (fun c => c.client.httpClient)).Pairwise (· < ·)) :
    (l.map RemoteCall.client).Nodup := by
  rw [List.pairwise_map] at h
  rw [List.Nodup, List.pairwise_map]
  refine h.imp ?_
  intro a b hab heq
  rw [heq] at hab
  exact Nat.lt_irrefl _ hab

/-- Clients over a run of the retry wrapper, read off the log: the form of
`run_clients` the methods of the target use. -/
theorem run_clients_since {γ : Type} (env : Env)
    (operation : Nat → γ → World → Option String × γ × World) (tgt : γ → AzurePage)
    (hop : ∀ r g w, ∃ c : RemoteCall, c.client = (tgt g).StorageClient ∧
      (operation r g w).1 = env.respond w.calls c ∧
      (operation r g w).2.2.calls = w.calls ++ [c] ∧
      ((operation r g w).1 = none →
        tgt (operation r g w).2.1 = tgt g ∧ (operation r g w).2.2.nextHTTP = w.nextHTTP) ∧
      ((operation r g w).1 ≠ none →
        tgt (operation r g w).2.1 = { tgt g with StorageClient :=
          ⟨(tgt g).Creds.AccountName, (tgt g).Creds.AccountKey, w.nextHTTP⟩ } ∧
        (operation r g w).2.2.nextHTTP = w.nextHTTP + 1))
    (g : γ) (w : World) (hfresh : (tgt g).StorageClient.httpClient < w.nextHTTP) :
    (tgt (util.RetriableOperation env operation g w).2.1).Creds = (tgt g).Creds ∧
    (tgt (util.RetriableOperation env operation g w).2.1).Container = (tgt g).Container ∧
    (((util.RetriableOperation env operation g w).2.2.callsSince w).map
      RemoteCall.client).Nodup ∧
    (∀ rep, (util.RetriableOperation env operation g w).1 = .returned rep →
      ((util.RetriableOperation env operation g w).2.2.callsSince w).getLast?.map
        RemoteCall.client =
        some (tgt (util.RetriableOperation env operation g w).2.1).StorageClient) ∧
    ((util.RetriableOperation env operation g w).1 = .panicked →
      ∀ c ∈ (util.RetriableOperation env operation g w).2.2.callsSince w,
        c.client ≠ (tgt (util.RetriableOperation env operation g w).2.1).StorageClient) := by
  obtain ⟨hcr, hct, new, hnew, hpw, hret, hpan⟩ := run_clients env operation tgt hop g w hfresh
  have hsince : (util.RetriableOperation env operation g w).2.2.callsSince w = new := by
    rw [World.callsSince, hnew, List.drop_left]
  rw [hsince]
  refine ⟨hcr, hct, nodup_clients_of_increasing new hpw, hret, ?_⟩
  intro hp c hc heq
  have := hpan hp c hc
  rw [heq] at this
  exact Nat.lt_irrefl _ this

/-- When the three validations pass and the store accepts the first request,
`PreProcessSourceInfo` sends exactly one create request, through the client of
the target, on its container, named by the target alias, with the converted
size and the User-Agent header, and returns nil; the target is unchanged. -/
theorem PreProcessSourceInfo_first_success (env : Env) (t : AzurePage) (source : SourceInfo)
    (blockSize : Nat) (w : World)
    (h1 : Int.tmod (int64 source.Size) (int64 PageSize) = 0)
    (h2 : ¬ int64 source.Size > int64 maxPageBlobSize)
    (h3 : ¬ (blockSize > maxPageSize ∨ blockSize < PageSize))
    (hlimit : 0 < env.retryLimit)
    (hok : env.respond w.calls (.PutPageBlob t.StorageClient t.Container source.TargetAlias
      (int64 source.Size) ⟨[("User-Agent", env.userAgent)]⟩) = none) :
    AzurePage.PreProcessSourceInfo env t source blockSize w =
      (.returned none, t,
        { w with
          calls := w.calls ++ [.PutPageBlob t.StorageClient t.Container source.TargetAlias
            (int64 source.Size) ⟨[("User-Agent", env.userAgent)]⟩],
          now := w.now + env.latency w.calls.length }) := by
  have hh : Headers.empty.set "User-Agent" env.userAgent = ⟨[("User-Agent", env.userAgent)]⟩ := by
    simp [Headers.set, Headers.empty]
  have hatt : AzurePage.createAttempt env source (int64 source.Size)
      (Headers.empty.set "User-Agent" env.userAgent) 0 t w =
      (none, t, { w with
          calls := w.calls ++ [.PutPageBlob t.StorageClient t.Container source.TargetAlias
            (int64 source.Size) ⟨[("User-Agent", env.userAgent)]⟩],
          now := w.now + env.latency w.calls.length }) := by
    unfold AzurePage.createAttempt
    simp only [World.perform, hh, hok]
  rw [PreProcessSourceInfo_of_valid env t source blockSize w h1 h2 h3,
    util.RetriableOperation.first_success env _ t w hlimit (by rw [hatt]), hatt]
  rfl

/-- A run of `PreProcessSourceInfo` that passes the validations sends at least
one request when the retry limit is not zero, and every request it sends is the
create request for the target alias with the converted size. -/
theorem PreProcessSourceInfo_requests (env : Env) (t : AzurePage) (source : SourceInfo)
    (blockSize : Nat) (w : World)
    (h1 : Int.tmod (int64 source.Size) (int64 PageSize) = 0)
    (h2 : ¬ int64 source.Size > int64 maxPageBlobSize)
    (h3 : ¬ (blockSize > maxPageSize ∨ blockSize < PageSize)) :
    ∃ new, (AzurePage.PreProcessSourceInfo env t source blockSize w).2.2.calls = w.calls ++ new ∧
      (0 < env.retryLimit → new ≠ []) ∧
      ∀ c ∈ new, ∃ client, c = RemoteCall.PutPageBlob client t.Container source.TargetAlias
        (int64 source.Size) ⟨[("User-Agent", env.userAgent)]⟩ := by
  have hh : Headers.empty.set "User-Agent" env.userAgent = ⟨[("User-Agent", env.userAgent)]⟩ := by
    simp [Headers.set, Headers.empty]
  rw [PreProcessSourceInfo_of_valid env t source blockSize w h1 h2 h3, hh]
  simp only
  let Inv : AzurePage → World → Prop := fun t1 w1 =>
    t1.Container = t.Container ∧
    ∃ new, w1.calls = w.calls ++ new ∧ (w1.calls.length = w.calls.length + new.length) ∧
      ∀ c ∈ new, ∃ client, c = RemoteCall.PutPageBlob client t.Container source.TargetAlias
        (int64 source.Size) ⟨[("User-Agent", env.userAgent)]⟩
  have hstep : ∀ r t1 w1, Inv t1 w1 → Inv
      (AzurePage.createAttempt env source (int64 source.Size)
        ⟨[("User-Agent", env.userAgent)]⟩ r t1 w1).2.1
      (AzurePage.createAttempt env source (int64 source.Size)
        ⟨[("User-Agent", env.userAgent)]⟩ r t1 w1).2.2 := by
    intro r t1 w1 ⟨hc, new, hnew, hlen, hall⟩
    obtain ⟨-, hcalls, hnone, hsome⟩ := createAttempt_spec env source (int64 source.Size)
      ⟨[("User-Agent", env.userAgent)]⟩ r t1 w1
    refine ⟨?_, new ++ [_], by rw [hcalls, hnew, List.append_assoc], ?_, ?_⟩
    · by_cases hz : (AzurePage.createAttempt env source (int64 source.Size)
          ⟨[("User-Agent", env.userAgent)]⟩ r t1 w1).1 = none
      · rw [(hnone hz).1]; exact hc
      · rw [(hsome hz).1]; exact hc
    · rw [hcalls]
      simp only [List.length_append, List.length_singleton]
      omega
    · intro c hcm
      rcases List.mem_append.mp hcm with hcm | hcm
      · exact hall c hcm
      · rw [List.mem_singleton] at hcm
        exact ⟨t1.StorageClient, by rw [hcm, hc]⟩
  have hrule := util.RetriableOperation.loop_rule env
    (AzurePage.createAttempt env source (int64 source.Size) ⟨[("User-Agent", env.userAgent)]⟩)
    w.now Inv Inv
    (fun r g w1 hinv => ⟨fun _ => hstep r g w1 hinv, fun _ _ => hstep r g w1 hinv⟩)
    env.retryLimit 0 t w ⟨rfl, [], by simp, by simp, by simp⟩
  have hlen := util.RetriableOperation.loop_calls_length env
    (AzurePage.createAttempt env source (int64 source.Size) ⟨[("User-Agent", env.userAgent)]⟩)
    w.now (fun r g w1 => by
      rw [(createAttempt_spec env source (int64 source.Size) _ r g w1).2.1]
      simp) env.retryLimit 0 t w
  unfold util.RetriableOperation
  cases hout : (util.RetriableOperation.loop env
    (AzurePage.createAttempt env source (int64 source.Size) ⟨[("User-Agent", env.userAgent)]⟩)
    w.now env.retryLimit 0 t w).1 with
  | panicked =>
    obtain ⟨-, new, hnew, hl, hall⟩ := hrule.1 hout
    have := hlen.1 hout
    refine ⟨new, hnew, ?_, hall⟩
    intro hpos hnil
    rw [hnil] at hl
    simp only [List.length_nil] at hl
    omega
  | returned rep =>
    obtain ⟨-, new, hnew, hl, hall⟩ := hrule.2 rep hout
    have := (hlen.2 rep hout).2.2
    refine ⟨new, hnew, ?_, hall⟩
    intro hpos hnil
    rw [hnil] at hl
    simp only [List.length_nil] at hl
    omega

/-! ## Sizes and block sizes around the defects -/

/-- Between 8 TiB and 2^63 the size does not wrap and the source is rejected
with nothing sent: by the maximum size check when the size is a multiple of 512,
by the alignment check, which comes first, when it is not. -/
theorem PreProcessSourceInfo_oversize_below_wrap (env : Env) (t : AzurePage)
    (source : SourceInfo) (blockSize : Nat) (w : World)
    (hbig : 8796093022208 < source.Size) (hwrap : source.Size < 2 ^ 63) :
    AzurePage.PreProcessSourceInfo env t source blockSize w =
      (.returned (some (if source.Size % 512 = 0
        then .tooBig source.SourceName source.Size 8796093022208
        else .invalidSize source.SourceName source.Size 512)), t, w) := by
  have hlt : source.Size < 2 ^ 64 := by omega
  by_cases hal : source.Size % 512 = 0
  · have h1 := (tmod_int64_eq_zero_iff hlt).mpr hal
    have h2 : int64 source.Size > int64 maxPageBlobSize := by
      rw [int64_of_lt hwrap, int64_maxPageBlobSize]
      omega
    unfold AzurePage.PreProcessSourceInfo
    simp only [h1, ne_eq, not_true_eq_false, if_false, h2, if_true, hal]
    rfl
  · have h1 := (tmod_int64_eq_zero_iff hlt).not.mpr hal
    unfold AzurePage.PreProcessSourceInfo
    simp only [ne_eq, h1, not_false_eq_true, if_true, hal, if_false]
    rfl

/-- Parts of a source whose size and block size are both multiples of 512: every
part starts on a page boundary, holds a whole number of pages, is not empty and
ends within the source. -/
theorem partition_aligned {size B off len : Nat} (hsize : size % 512 = 0) (hB : B % 512 = 0)
    (hpos : 0 < B) (hmem : (off, len) ∈ partition size B) :
    off % 512 = 0 ∧ len % 512 = 0 ∧ 1 ≤ len ∧ off + len ≤ size := by
  unfold partition at hmem
  obtain ⟨k, hk, hkeq⟩ := List.mem_map.mp hmem
  rw [List.mem_range] at hk
  simp only [Prod.mk.injEq] at hkeq
  obtain ⟨rfl, rfl⟩ := hkeq
  have h1 : (k + 1) * B ≤ size + B - 1 := (Nat.le_div_iff_mul_le hpos).mp hk
  have h2 : (k + 1) * B = k * B + B := by ring
  have h3 : (k * B) % 512 = 0 := by
    rw [Nat.mul_mod, hB]
    simp
  generalize k * B = m at *
  rcases Nat.le_total B (size - m) with hle | hle
  · rw [Nat.min_eq_left hle]
    omega
  · rw [Nat.min_eq_right hle]
    omega

/-- With a block size that is a multiple of 512, every request `WritePart` sends
for a part of an aligned source of at most 8 TiB is aligned: start mod 512 = 0
and (end - start + 1) mod 512 = 0. -/
theorem putPage_aligned_of_aligned_block (env : Env) (t : AzurePage) (w : World)
    (size B off len : Nat) (data : List Nat) (name : String) (md5 : Option String)
    (hsize : size % 512 = 0) (hmax : size ≤ 8796093022208) (hB : B % 512 = 0) (hpos : 0 < B)
    (hmem : (off, len) ∈ partition size B) :
    ∀ c ∈ (AzurePage.WritePart env t ⟨off, len, data, name, md5⟩ w).2.2.callsSince w,
      ∃ s e, c.range = some (s, e) ∧ Int.tmod s 512 = 0 ∧ Int.tmod (e - s + 1) 512 = 0 := by
  obtain ⟨hoff, hlen, hone, hend⟩ := partition_aligned hsize hB hpos hmem
  obtain ⟨hst, hen⟩ := @putPage_range off len hone (by omega)
  obtain ⟨-, -, new, hnew, hall⟩ := WritePart_requests env t ⟨off, len, data, name, md5⟩ w
  have hsince : (AzurePage.WritePart env t ⟨off, len, data, name, md5⟩ w).2.2.callsSince w
      = new := by
    rw [World.callsSince, hnew, List.drop_left]
  rw [hsince]
  intro c hc
  obtain ⟨client, rfl⟩ := hall c hc
  refine ⟨_, _, rfl, ?_, ?_⟩
  · simp only [hst]
    rw [← Int.dvd_iff_tmod_eq_zero]
    omega
  · simp only [hst, hen]
    rw [← Int.dvd_iff_tmod_eq_zero]
    omega

/-! ## Claims -/

/-- C1 (evaluation of the code at the failing input). A source of 2^63 bytes is
larger than 8 TiB and is a well-formed unsigned 64-bit size, yet with block size
512 `PreProcessSourceInfo` never returns an error, whatever the store answers:
the size wraps to -2^63 in the signed conversion, passes the three checks, and
a create request with that negative size is sent. -/
theorem C1_oversize_wraps_past_the_check :
    (8796093022208 < 2 ^ 63 ∧ 2 ^ 63 < 2 ^ 64) ∧
    (∀ (env : Env) (t : AzurePage) (w : World) (e : ConfigError),
      (AzurePage.PreProcessSourceInfo env t ⟨"f", 2 ^ 63, "alias"⟩ 512 w).1 ≠
        .returned (some e)) ∧
    AzurePage.PreProcessSourceInfo okEnv testTarget ⟨"f", 2 ^ 63, "alias"⟩ 512 world0 =
      (.returned none, testTarget,
        { calls := [.PutPageBlob ⟨"acct", "key", 0⟩ "bptest" "alias" (-9223372036854775808)
            ⟨[("User-Agent", "BlobPorter")]⟩],
          nextHTTP := 1, now := 1 }) := by
  refine ⟨by decide, ?_, by decide⟩
  intro env t w e
  rw [PreProcessSourceInfo_of_valid env t ⟨"f", 2 ^ 63, "alias"⟩ 512 w (by decide) (by decide)
    (by decide)]
  exact Outcome.map_none_ne _ e

/-- C2. For every source whose size, an unsigned 64-bit value (also one of 2^63
or more, negative once converted), is not a multiple of 512, and for every block
size, `PreProcessSourceInfo` returns the page alignment error; the target and
the world are untouched, so no request is sent. -/
theorem C2_misaligned_size_rejected (env : Env) (t : AzurePage) (source : SourceInfo)
    (blockSize : Nat) (w : World) (hsize : source.Size < 2 ^ 64)
    (hmis : source.Size % 512 ≠ 0) :
    AzurePage.PreProcessSourceInfo env t source blockSize w =
      (.returned (some (.invalidSize source.SourceName source.Size 512)), t, w) := by
  have h := (tmod_int64_eq_zero_iff hsize).not.mpr hmis
  unfold AzurePage.PreProcessSourceInfo
  simp only [ne_eq, h, not_false_eq_true, if_true]
  rfl

/-- C2 at a size above 2^63: 2^63 + 123 bytes, block size 4 MiB. -/
theorem C2_misaligned_size_rejected_witness :
    AzurePage.PreProcessSourceInfo okEnv testTarget ⟨"f", 2 ^ 63 + 123, "alias"⟩ 4194304 world0 =
      (.returned (some (.invalidSize "f" (2 ^ 63 + 123) 512)), testTarget, world0) :=
  C2_misaligned_size_rejected okEnv testTarget ⟨"f", 2 ^ 63 + 123, "alias"⟩ 4194304 world0
    (by decide) (by decide)

/-- C3. For every source whose size is a multiple of 512 and at most 8 TiB,
`PreProcessSourceInfo` returns an error iff the block size is below 512 or above
4 MiB, and the error is then the block size error with nothing sent; block sizes
512 and 4 MiB are accepted. -/
theorem C3_block_size_bounds (env : Env) (t : AzurePage) (source : SourceInfo)
    (blockSize : Nat) (w : World) (hal : source.Size % 512 = 0)
    (hmax : source.Size ≤ 8796093022208) :
    ((∃ e, (AzurePage.PreProcessSourceInfo env t source blockSize w).1 = .returned (some e)) ↔
      (blockSize < 512 ∨ blockSize > 4194304)) ∧
    ((blockSize < 512 ∨ blockSize > 4194304) →
      AzurePage.PreProcessSourceInfo env t source blockSize w =
        (.returned (some (.invalidBlockSize 512 4194304)), t, w)) ∧
    (∀ e, (AzurePage.PreProcessSourceInfo env t source 512 w).1 ≠ .returned (some e)) ∧
    (∀ e, (AzurePage.PreProcessSourceInfo env t source 4194304 w).1 ≠ .returned (some e)) := by
  obtain ⟨h1, h2⟩ := size_valid_of_aligned_le hal hmax
  have hbad : ∀ b : Nat, (b < 512 ∨ b > 4194304) →
      AzurePage.PreProcessSourceInfo env t source b w =
        (.returned (some (.invalidBlockSize 512 4194304)), t, w) := by
    intro b hb
    have h3 : b > maxPageSize ∨ b < PageSize := by
      simp only [maxPageSize, PageSize, util.MB]; omega
    unfold AzurePage.PreProcessSourceInfo
    simp only [h1, ne_eq, not_true_eq_false, if_false, h2, h3, if_true]
    rfl
  have hgood : ∀ b : Nat, ¬ (b < 512 ∨ b > 4194304) →
      ∀ e, (AzurePage.PreProcessSourceInfo env t source b w).1 ≠ .returned (some e) := by
    intro b hb e
    have h3 : ¬ (b > maxPageSize ∨ b < PageSize) := by
      simp only [maxPageSize, PageSize, util.MB]; omega
    rw [PreProcessSourceInfo_of_valid env t source b w h1 h2 h3]
    exact Outcome.map_none_ne _ e
  refine ⟨⟨?_, ?_⟩, hbad blockSize, hgood 512 (by omega), hgood 4194304 (by omega)⟩
  · rintro ⟨e, he⟩
    by_contra hb
    exact hgood blockSize hb e he
  · intro hb
    exact ⟨_, by rw [hbad blockSize hb]⟩

/-- C3 at the scenario of `TestFileToPage`: a 1 MiB source with block size 4 MiB
is accepted. -/
theorem C3_block_size_bounds_witness :
    ((∃ e, (AzurePage.PreProcessSourceInfo okEnv testTarget ⟨"f", 1048576, "alias"⟩ 4194304
        world0).1 = .returned (some e)) ↔ ((4194304 : Nat) < 512 ∨ (4194304 : Nat) > 4194304)) ∧
    (AzurePage.PreProcessSourceInfo okEnv testTarget ⟨"f", 1048576, "alias"⟩ 4194304 world0).1 =
      .returned none :=
  ⟨(C3_block_size_bounds okEnv testTarget ⟨"f", 1048576, "alias"⟩ 4194304 world0
    (by decide) (by decide)).1, by decide⟩

/-- C4 (evaluation of the code at the failing input). A source of 1024 bytes
with block size 513 passes the three validations of `PreProcessSourceInfo`
(1024 is a multiple of 512 and 512 ≤ 513 ≤ 4 MiB), whatever the store answers.
Its partition into consecutive parts of length 513 is (0, 513), (513, 511). The
request `WritePart` sends for the first part is put_page(0, 512), of length
513, and the request for the second part starts at 513: neither is aligned to
512. -/
theorem C4_unaligned_block_size_is_accepted :
    (1024 % 512 = 0 ∧ 512 ≤ 513 ∧ 513 ≤ 4194304) ∧
    (∀ (env : Env) (t : AzurePage) (w : World) (e : ConfigError),
      (AzurePage.PreProcessSourceInfo env t ⟨"f", 1024, "alias"⟩ 513 w).1 ≠
        .returned (some e)) ∧
    (AzurePage.PreProcessSourceInfo okEnv testTarget ⟨"f", 1024, "alias"⟩ 513 world0).1 =
      .returned none ∧
    partition 1024 513 = [(0, 513), (513, 511)] ∧
    ((AzurePage.WritePart okEnv testTarget ⟨0, 513, List.replicate 513 1, "alias", none⟩
      world0).2.2.callsSince world0).map RemoteCall.range = [some (0, 512)] ∧
    Int.tmod ((512 : Int) - 0 + 1) 512 = 1 ∧
    ((AzurePage.WritePart okEnv testTarget ⟨513, 511, List.replicate 511 1, "alias", none⟩
      world0).2.2.callsSince world0).map RemoteCall.range = [some (513, 1023)] ∧
    Int.tmod (513 : Int) 512 = 1 := by
  refine ⟨by decide, ?_, by decide, by decide, by decide, by decide, by decide, by decide⟩
  intro env t w e
  rw [PreProcessSourceInfo_of_valid env t ⟨"f", 1024, "alias"⟩ 513 w (by decide) (by decide)
    (by decide)]
  exact Outcome.map_none_ne _ e

/-- C5. For every part with at least one byte to read that ends within the
first 8 TiB, every request `WritePart` sends, on the first attempt and on every
retry, is the same PUT page request: the container of the target, the target
alias of the part, start = offset, end = offset + bytes_to_read - 1 (so start ≤
end and end - start + 1 = bytes_to_read), action "update", the data of the part
and the same headers. It sends one request per attempt. -/
theorem C5_put_page_request (env : Env) (t : AzurePage) (part : Part) (w : World)
    (hlen : 1 ≤ part.BytesToRead) (hend : part.Offset + part.BytesToRead ≤ 8796093022208) :
    (AzurePage.WritePart env t part w).2.2.calls =
      w.calls ++ (AzurePage.WritePart env t part w).2.2.callsSince w ∧
    (∃ headers, ∀ c ∈ (AzurePage.WritePart env t part w).2.2.callsSince w, ∃ client,
      c = RemoteCall.PutPage client t.Container part.TargetAlias (part.Offset : Int)
        ((part.Offset : Int) + (part.BytesToRead : Int) - 1) "update" part.Data headers) ∧
    ((part.Offset : Int) ≤ (part.Offset : Int) + (part.BytesToRead : Int) - 1 ∧
      ((part.Offset : Int) + (part.BytesToRead : Int) - 1) - (part.Offset : Int) + 1 =
        (part.BytesToRead : Int)) ∧
    ((AzurePage.WritePart env t part w).1 = .panicked →
      ((AzurePage.WritePart env t part w).2.2.callsSince w).length = env.retryLimit) ∧
    (∀ d s n err, (AzurePage.WritePart env t part w).1 = .returned (d, s, n, err) →
      ((AzurePage.WritePart env t part w).2.2.callsSince w).length = n + 1) := by
  obtain ⟨hoff, hendb⟩ := putPage_range hlen hend
  obtain ⟨-, -, new, hnew, hall⟩ := WritePart_requests env t part w
  have hsince : (AzurePage.WritePart env t part w).2.2.callsSince w = new := by
    rw [World.callsSince, hnew, List.drop_left]
  have hcount := WritePart_calls_length env t part w
  rw [hnew, List.length_append] at hcount
  rw [hsince]
  refine ⟨hnew, ⟨sentHeaders env part, ?_⟩, ⟨by omega, by omega⟩, ?_, ?_⟩
  · intro c hc
    obtain ⟨client, hcl⟩ := hall c hc
    exact ⟨client, by rw [hcl, hoff, hendb]⟩
  · intro hp
    have := hcount.1 hp
    omega
  · intro d s n err hret
    have := (hcount.2 d s n err hret).2
    omega

/-- C5 at the scenario of the spec: offset 0 and 1 MiB of data give
put_page(0, 1048575), also on the retry after a failed first attempt. -/
theorem C5_put_page_request_witness :
    (AzurePage.WritePart (flakyEnv 1) testTarget ⟨0, 1048576, [1, 1], "alias", none⟩
      world0).2.2.callsSince world0 =
      [.PutPage ⟨"acct", "key", 0⟩ "bptest" "alias" 0 1048575 "update" [1, 1]
          ⟨[("User-Agent", "BlobPorter")]⟩,
        .PutPage ⟨"acct", "key", 1⟩ "bptest" "alias" 0 1048575 "update" [1, 1]
          ⟨[("User-Agent", "BlobPorter")]⟩] ∧
    ∃ headers, ∀ c ∈ (AzurePage.WritePart (flakyEnv 1) testTarget
        ⟨0, 1048576, [1, 1], "alias", none⟩ world0).2.2.callsSince world0, ∃ client,
      c = RemoteCall.PutPage client "bptest" "alias" ((0 : Nat) : Int)
        (((0 : Nat) : Int) + ((1048576 : Nat) : Int) - 1) "update" [1, 1] headers :=
  ⟨by decide, (C5_put_page_request (flakyEnv 1) testTarget ⟨0, 1048576, [1, 1], "alias", none⟩
    world0 (by decide) (by decide)).2.1⟩

/-- C6 (evaluation of the code at the failing input). For a source that
declares 2^63 bytes, more than the largest page blob, the three checks of
`PreProcessSourceInfo` pass on the wrapped size, and with block size 512 and a
store that accepts the first request it sends one create request, named by the
target alias, whose size is -2^63 and not the declared size, and returns nil. -/
theorem C6_create_request_of_wrapped_size :
    maxPageBlobSize < 2 ^ 63 ∧
    AzurePage.PreProcessSourceInfo okEnv testTarget ⟨"source", 2 ^ 63, "alias"⟩ 512 world0 =
      (.returned none, testTarget,
        { calls := [.PutPageBlob ⟨"acct", "key", 0⟩ "bptest" "alias" (-(2 ^ 63))
            ⟨[("User-Agent", "BlobPorter")]⟩],
          nextHTTP := 1, now := 1 }) ∧
    ((AzurePage.PreProcessSourceInfo okEnv testTarget ⟨"source", 2 ^ 63, "alias"⟩ 512
      world0).2.2.callsSince world0).map RemoteCall.size = [some (-(2 ^ 63))] ∧
    (-(2 ^ 63) : Int) ≠ ((2 ^ 63 : Nat) : Int) := by
  refine ⟨by decide, by decide, by decide, by decide⟩

/-- C7. For every part, the headers of every PUT page request `WritePart` sends
hold a Content-MD5 entry iff the MD5 of the part has been computed, its value is
then the MD5 of the part; they always hold the User-Agent entry, and no entry
under any other key. -/
theorem C7_put_page_headers (env : Env) (t : AzurePage) (part : Part) (w : World)
    (c : RemoteCall) (hc : c ∈ (AzurePage.WritePart env t part w).2.2.callsSince w) :
    ((c.headers.get "Content-MD5").isSome = part.IsMD5Computed) ∧
    (part.IsMD5Computed = true → c.headers.get "Content-MD5" = some part.MD5) ∧
    c.headers.get "User-Agent" = some (util.GetUserAgentInfo env) ∧
    (∀ k ∈ c.headers.keys, k = "Content-MD5" ∨ k = "User-Agent") ∧
    c.headers.keys.Nodup := by
  obtain ⟨-, -, new, hnew, hall⟩ := WritePart_requests env t part w
  have hsince : (AzurePage.WritePart env t part w).2.2.callsSince w = new := by
    rw [World.callsSince, hnew, List.drop_left]
  rw [hsince] at hc
  obtain ⟨client, rfl⟩ := hall c hc
  have hne : ("User-Agent" == "Content-MD5") = false := by decide
  have hne2 : ¬ ("Content-MD5" = "User-Agent") := by decide
  cases hmd : part.md5 <;>
    simp [RemoteCall.headers, sentHeaders, Part.IsMD5Computed, Part.MD5, Headers.get,
      Headers.keys, hmd, util.GetUserAgentInfo, List.lookup, hne, hne2]

/-- C7 on the retry of a part that carries an MD5. -/
theorem C7_put_page_headers_witness :
    ((Headers.mk [("Content-MD5", "abc"), ("User-Agent", "BlobPorter")]).get "Content-MD5"
      = some "abc") ∧
    ((Headers.mk [("Content-MD5", "abc"), ("User-Agent", "BlobPorter")]).get "User-Agent"
      = some "BlobPorter") :=
  have h := C7_put_page_headers (flakyEnv 1) testTarget ⟨0, 1048576, [1, 1], "alias", some "abc"⟩
    world0
    (.PutPage ⟨"acct", "key", 1⟩ "bptest" "alias" 0 1048575 "update" [1, 1]
      ⟨[("Content-MD5", "abc"), ("User-Agent", "BlobPorter")]⟩) (by decide)
  ⟨h.2.1 rfl, h.2.2.1⟩

/-- C8. The commit bookkeeping of the page target is pass-through: for every
worker result, committed list, block count and target name,
`ProcessWrittenPart` gives requeue = false and no error, `CommitList` gives the
message "Page blob committed" and no error, and both leave the committed list,
the target and the world (so the log of remote calls) as they were. -/
theorem C8_commit_pass_through (t : AzurePage) (result : WorkerResult)
    (listInfo : TargetCommittedListInfo) (NumberOfBlocks : Int) (targetName : String)
    (w : World) :
    AzurePage.ProcessWrittenPart t result listInfo w = ((false, none), t, listInfo, w) ∧
    AzurePage.CommitList t listInfo NumberOfBlocks targetName w =
      (("Page blob committed", none), t, listInfo, w) ∧
    (AzurePage.ProcessWrittenPart t result listInfo w).2.2.2.calls = w.calls ∧
    (AzurePage.CommitList t listInfo NumberOfBlocks targetName w).2.2.2.calls = w.calls :=
  ⟨rfl, rfl, rfl, rfl⟩

/-- C9. In `WritePart` and in `PreProcessSourceInfo`, for every attempt made
under the retry wrapper, the storage client of the target is replaced by a newly
built one iff the attempt failed; the target handed back to the wrapper together
with the error already holds the new client, and the reset changes the
`StorageClient` field only (`Container` and `Creds` stay). Over a whole run no
two attempts go through the same client; the client of the successful attempt
stays in the target, and after a panic the target holds a client that no attempt
used. The target starts with a client that has been built
(`httpClient < nextHTTP`). -/
theorem C9_client_reset_on_failure (env : Env) (t : AzurePage) (part : Part)
    (source : SourceInfo) (blockSize : Nat) (w : World)
    (hfresh : t.StorageClient.httpClient < w.nextHTTP) :
    (∀ (r : Nat) (h : Headers) (o e : Int),
      ((AzurePage.writeAttempt env part o e r (t, h) w).1 ≠ none ↔
        (AzurePage.writeAttempt env part o e r (t, h) w).2.1.1.StorageClient ≠
          t.StorageClient) ∧
      ((AzurePage.writeAttempt env part o e r (t, h) w).1 ≠ none →
        (AzurePage.writeAttempt env part o e r (t, h) w).2.1.1 = { t with StorageClient :=
          ⟨t.Creds.AccountName, t.Creds.AccountKey, w.nextHTTP⟩ }) ∧
      ((AzurePage.writeAttempt env part o e r (t, h) w).1 = none →
        (AzurePage.writeAttempt env part o e r (t, h) w).2.1.1 = t)) ∧
    (∀ (r : Nat) (h : Headers) (size : Int),
      ((AzurePage.createAttempt env source size h r t w).1 ≠ none ↔
        (AzurePage.createAttempt env source size h r t w).2.1.StorageClient ≠
          t.StorageClient) ∧
      ((AzurePage.createAttempt env source size h r t w).1 ≠ none →
        (AzurePage.createAttempt env source size h r t w).2.1 = { t with StorageClient :=
          ⟨t.Creds.AccountName, t.Creds.AccountKey, w.nextHTTP⟩ }) ∧
      ((AzurePage.createAttempt env source size h r t w).1 = none →
        (AzurePage.createAttempt env source size h r t w).2.1 = t)) ∧
    ((AzurePage.WritePart env t part w).2.1.Creds = t.Creds ∧
      (AzurePage.WritePart env t part w).2.1.Container = t.Container ∧
      (((AzurePage.WritePart env t part w).2.2.callsSince w).map RemoteCall.client).Nodup ∧
      (∀ v, (AzurePage.WritePart env t part w).1 = .returned v →
        ((AzurePage.WritePart env t part w).2.2.callsSince w).getLast?.map RemoteCall.client =
          some (AzurePage.WritePart env t part w).2.1.StorageClient) ∧
      ((AzurePage.WritePart env t part w).1 = .panicked →
        ∀ c ∈ (AzurePage.WritePart env t part w).2.2.callsSince w,
          c.client ≠ (AzurePage.WritePart env t part w).2.1.StorageClient)) ∧
    ((AzurePage.PreProcessSourceInfo env t source blockSize w).2.1.Creds = t.Creds ∧
      (AzurePage.PreProcessSourceInfo env t source blockSize w).2.1.Container = t.Container ∧
      (((AzurePage.PreProcessSourceInfo env t source blockSize w).2.2.callsSince w).map
        RemoteCall.client).Nodup ∧
      ((AzurePage.PreProcessSourceInfo env t source blockSize w).1 = .returned none →
        ((AzurePage.PreProcessSourceInfo env t source blockSize w).2.2.callsSince w).getLast?.map
          RemoteCall.client =
          some (AzurePage.PreProcessSourceInfo env t source blockSize w).2.1.StorageClient) ∧
      ((AzurePage.PreProcessSourceInfo env t source blockSize w).1 = .panicked →
        ∀ c ∈ (AzurePage.PreProcessSourceInfo env t source blockSize w).2.2.callsSince w,
          c.client ≠ (AzurePage.PreProcessSourceInfo env t source blockSize w).2.1.StorageClient))
    := by
  have hnew : (⟨t.Creds.AccountName, t.Creds.AccountKey, w.nextHTTP⟩ : BlobStorageClient) ≠
      t.StorageClient := by
    intro heq
    rw [← heq] at hfresh
    exact Nat.lt_irrefl _ hfresh
  refine ⟨?_, ?_, ?_, ?_⟩
  · intro r h o e
    obtain ⟨c, -, -, -, hnone, hsome⟩ := writeAttempt_client env part o e r (t, h) w
    refine ⟨⟨fun hz => ?_, fun hz hn => hz ?_⟩, fun hz => (hsome hz).1, fun hz => (hnone hz).1⟩
    · rw [(hsome hz).1]
      exact hnew
    · rw [(hnone hn).1]
  · intro r h size
    obtain ⟨c, -, -, -, hnone, hsome⟩ := createAttempt_client env source size h r t w
    refine ⟨⟨fun hz => ?_, fun hz hn => hz ?_⟩, fun hz => (hsome hz).1, fun hz => (hnone hz).1⟩
    · rw [(hsome hz).1]
      exact hnew
    · rw [(hnone hn).1]
  · have hrun := run_clients_since env
      (AzurePage.writeAttempt env part (int64 part.Offset)
        (int64 (addSubOne64 part.Offset (uint64 part.BytesToRead))))
      (fun g => g.1) (fun r g w1 => writeAttempt_client env part _ _ r g w1)
      (t, Headers.empty) w hfresh
    rw [WritePart_outcome, WritePart_state]
    obtain ⟨hcr, hct, hnd, hret, hpan⟩ := hrun
    refine ⟨hcr, hct, hnd, ?_, ?_⟩
    · intro v hv
      cases hout : (util.RetriableOperation env
        (AzurePage.writeAttempt env part (int64 part.Offset)
          (int64 (addSubOne64 part.Offset (uint64 part.BytesToRead))))
        (t, Headers.empty) w).1 with
      | panicked => rw [hout] at hv; simp [Outcome.map] at hv
      | returned rep => exact hret rep hout
    · intro hp
      cases hout : (util.RetriableOperation env
        (AzurePage.writeAttempt env part (int64 part.Offset)
          (int64 (addSubOne64 part.Offset (uint64 part.BytesToRead))))
        (t, Headers.empty) w).1 with
      | panicked => exact hpan hout
      | returned rep => rw [hout] at hp; simp [Outcome.map] at hp
  · by_cases hv : Int.tmod (int64 source.Size) (int64 PageSize) = 0 ∧
        ¬ int64 source.Size > int64 maxPageBlobSize ∧
        ¬ (blockSize > maxPageSize ∨ blockSize < PageSize)
    · have hrun := run_clients_since env
        (AzurePage.createAttempt env source (int64 source.Size)
          (Headers.empty.set "User-Agent" env.userAgent))
        (fun g => g) (fun r g w1 => createAttempt_client env source _ _ r g w1) t w hfresh
      rw [PreProcessSourceInfo_of_valid env t source blockSize w hv.1 hv.2.1 hv.2.2]
      obtain ⟨hcr, hct, hnd, hret, hpan⟩ := hrun
      refine ⟨hcr, hct, hnd, ?_, ?_⟩
      · intro hret2
        cases hout : (util.RetriableOperation env
          (AzurePage.createAttempt env source (int64 source.Size)
            (Headers.empty.set "User-Agent" env.userAgent)) t w).1 with
        | panicked => simp only at hret2; rw [hout] at hret2; simp [Outcome.map] at hret2
        | returned rep => exact hret rep hout
      · intro hp
        cases hout : (util.RetriableOperation env
          (AzurePage.createAttempt env source (int64 source.Size)
            (Headers.empty.set "User-Agent" env.userAgent)) t w).1 with
        | panicked => exact hpan hout
        | returned rep => simp only at hp; rw [hout] at hp; simp [Outcome.map] at hp
    · obtain ⟨e, he⟩ := PreProcessSourceInfo_of_invalid env t source blockSize w hv
      rw [he]
      simp [World.callsSince]

/-- C9 on a run whose first two attempts fail: three requests through the
clients 0, 1 and 2, and client 2 stays in the target. -/
theorem C9_client_reset_on_failure_witness :
    ((AzurePage.WritePart (flakyEnv 2) testTarget ⟨0, 512, [1], "alias", none⟩
      world0).2.2.callsSince world0).map (fun c => c.client.httpClient) = [0, 1, 2] ∧
    (((AzurePage.WritePart (flakyEnv 2) testTarget ⟨0, 512, [1], "alias", none⟩
      world0).2.2.callsSince world0).map RemoteCall.client).Nodup ∧
    (AzurePage.WritePart (flakyEnv 2) testTarget ⟨0, 512, [1], "alias", none⟩
      world0).2.1 = { testTarget with StorageClient := ⟨"acct", "key", 2⟩ } :=
  ⟨by decide,
    (C9_client_reset_on_failure (flakyEnv 2) testTarget ⟨0, 512, [1], "alias", none⟩
      ⟨"f", 512, "alias"⟩ 512 world0 (by decide)).2.2.1.2.2.1,
    by decide⟩

/-- C10. Whenever `WritePart` returns, its error is nil and the duration, the
start time and the retry count are those the retry wrapper reports, for every
part and every store; it panics exactly when the wrapper does. Likewise
`PreProcessSourceInfo` returns nil whenever the validations passed and it
returns. When the store accepts the first request (and the retry limit is not
zero), `WritePart` does return, with no retries. -/
theorem C10_nil_error_when_returning (env : Env) (t : AzurePage) (part : Part)
    (source : SourceInfo) (blockSize : Nat) (w : World) :
    ((AzurePage.WritePart env t part w).1 =
      (util.RetriableOperation env
        (AzurePage.writeAttempt env part (int64 part.Offset)
          (int64 (addSubOne64 part.Offset (uint64 part.BytesToRead))))
        (t, Headers.empty) w).1.map
        (fun rep => (rep.duration, rep.startTime, rep.numOfRetries, none))) ∧
    (∀ d s n err, (AzurePage.WritePart env t part w).1 = .returned (d, s, n, err) →
      err = none ∧
      (util.RetriableOperation env
        (AzurePage.writeAttempt env part (int64 part.Offset)
          (int64 (addSubOne64 part.Offset (uint64 part.BytesToRead))))
        (t, Headers.empty) w).1 = .returned ⟨d, s, n⟩) ∧
    (Int.tmod (int64 source.Size) (int64 PageSize) = 0 →
      ¬ int64 source.Size > int64 maxPageBlobSize →
      ¬ (blockSize > maxPageSize ∨ blockSize < PageSize) →
      ∀ e, (AzurePage.PreProcessSourceInfo env t source blockSize w).1 = .returned e →
        e = none) ∧
    (0 < env.retryLimit →
      env.respond w.calls (.PutPage t.StorageClient t.Container part.TargetAlias
        (int64 part.Offset) (int64 (addSubOne64 part.Offset (uint64 part.BytesToRead)))
        "update" part.Data (sentHeaders env part)) = none →
      (AzurePage.WritePart env t part w).1 =
        .returned (env.latency w.calls.length, w.now, 0, none)) := by
  refine ⟨WritePart_outcome env t part w, ?_, ?_, ?_⟩
  · intro d s n err hret
    rw [WritePart_outcome] at hret
    cases hout : (util.RetriableOperation env
      (AzurePage.writeAttempt env part (int64 part.Offset)
        (int64 (addSubOne64 part.Offset (uint64 part.BytesToRead))))
      (t, Headers.empty) w).1 with
    | panicked => rw [hout] at hret; simp [Outcome.map] at hret
    | returned rep =>
      rw [hout] at hret
      simp only [Outcome.map, Outcome.returned.injEq, Prod.mk.injEq] at hret
      obtain ⟨rfl, rfl, rfl, rfl⟩ := hret
      exact ⟨rfl, rfl⟩
  · intro h1 h2 h3 e he
    rw [PreProcessSourceInfo_of_valid env t source blockSize w h1 h2 h3] at he
    simp only at he
    cases hout : (util.RetriableOperation env
      (AzurePage.createAttempt env source (int64 source.Size)
        (Headers.empty.set "User-Agent" env.userAgent)) t w).1 with
    | panicked => rw [hout] at he; simp [Outcome.map] at he
    | returned rep =>
      rw [hout] at he
      simp only [Outcome.map, Outcome.returned.injEq] at he
      exact he.symm
  · intro hlimit hok
    obtain ⟨hres, hcalls, -, -, -⟩ := writeAttempt_spec env part (int64 part.Offset)
      (int64 (addSubOne64 part.Offset (uint64 part.BytesToRead))) 0 (t, Headers.empty) w
      (Or.inl rfl)
    simp only at hres
    rw [hok] at hres
    rw [WritePart_outcome, util.RetriableOperation.first_success env _ _ w hlimit hres]
    simp only [Outcome.map, Outcome.returned.injEq, Prod.mk.injEq, and_true, true_and]
    unfold AzurePage.writeAttempt
    dsimp only
    split <;> rename_i heq <;>
      simp only [World.perform, Prod.mk.injEq] at heq <;>
      simp [AzurePage.resetClient, util.GetBlobStorageClientWithNewHTTPClient, ← heq.2]

/-- C10 on a run whose first attempt fails: `WritePart` returns after one retry,
with a nil error, what the retry wrapper reports. -/
theorem C10_nil_error_when_returning_witness :
    (AzurePage.WritePart (flakyEnv 1) testTarget ⟨0, 512, [1], "alias", none⟩ world0).1 =
      .returned (3, 0, 1, none) ∧
    (util.RetriableOperation (flakyEnv 1)
      (AzurePage.writeAttempt (flakyEnv 1) ⟨0, 512, [1], "alias", none⟩
        (int64 0) (int64 (addSubOne64 0 (uint64 512))))
      (testTarget, Headers.empty) world0).1 = .returned ⟨3, 0, 1⟩ :=
  ⟨by decide,
    ((C10_nil_error_when_returning (flakyEnv 1) testTarget ⟨0, 512, [1], "alias", none⟩
      ⟨"f", 512, "alias"⟩ 512 world0).2.1 3 0 1 none (by decide)).2⟩

end BlobPorter
